import Mathlib

/-!
Verification of the ConvoSphere browser client.

Shallow embedding of the client-side JavaScript sources:
  * `static/js/utils.js`   — utility helpers (expiring local storage,
    mention extraction, text truncation);
  * `static/js/websocket.js` — `WebSocketManager`, the user-scoped
    real-time channel client (connection lifecycle, heartbeat,
    bounded-backoff reconnection, message dispatch);
  * the room-scoped `ChatRoomManager` (chat page script).

Strings are modelled as Lean `String`s; for character-level algorithms
(`extractMentions`, `truncateText`) texts are modelled as `List Char`,
matching JavaScript's code-unit view of strings at the abstraction level
relevant to the claims. Timers and the event loop are modelled as
explicit state plus an event-step relation; wall-clock instants are
natural numbers (epoch milliseconds).
-/

namespace ConvoSphere

/-! ## `static/js/utils.js` — expiring local storage

`Utils.setStorageWithExpiry(key, value, ttl)` stores
`{value, expiry: now + ttl}` under `key`; `Utils.getStorageWithExpiry(key)`
returns `null` for a missing key, evicts and returns `null` when
`now > expiry`, and otherwise returns the stored value. The JSON
round-trip through `localStorage` is the identity on the stored record
and is elided. -/

structure StoredItem where
  value : String
  expiry : Nat
deriving DecidableEq

/-- The browser `localStorage`, restricted to this wrapper's entries. -/
def Storage : Type := String → Option StoredItem

/-- `Utils.setStorageWithExpiry(key, value, ttl)` called at instant `now`. -/
def setStorageWithExpiry (st : Storage) (key : String) (value : String)
    (ttl : Nat) (now : Nat) : Storage :=
  fun k => if k = key then some ⟨value, now + ttl⟩ else st k

/-- `Utils.getStorageWithExpiry(key)` called at instant `now`: returns the
read result and the storage after the call (the entry is removed when the
read happens strictly after its expiry instant). -/
def getStorageWithExpiry (st : Storage) (key : String) (now : Nat) :
    Option String × Storage :=
  match st key with
  | none => (none, st)
  | some item =>
    if item.expiry < now then
      (none, fun k => if k = key then none else st k)
    else
      (some item.value, st)

/-! ## `static/js/utils.js` — mention extraction

`Utils.extractMentions(text)` scans with the regex `/@(\w+)/g`,
collecting every capture group, and returns `[...new Set(mentions)]`:
duplicates removed, first occurrences kept in order. -/

/-- JavaScript's `\w` character class: `[A-Za-z0-9_]`. -/
def isWordChar (c : Char) : Bool :=
  c.isAlpha || c.isDigit || c = '_'

/-- The successive capture groups produced by repeatedly executing
`/@(\w+)/g` over the text: at each `'@'` followed by at least one word
character, the maximal word-character run is captured and scanning
resumes after it. -/
def scanMentions (cs : List Char) : List (List Char) :=
  match cs with
  | [] => []
  | c :: rest =>
    let w := rest.takeWhile isWordChar
    if c = '@' && !w.isEmpty then
      w :: scanMentions (rest.drop w.length)
    else
      scanMentions rest
termination_by cs.length
decreasing_by
  · simp only [List.length_cons, List.length_drop]
    omega
  · simp only [List.length_cons]
    omega

/-- `[...new Set(xs)]`: remove duplicates, keeping the first occurrence
of each element, in order. -/
def dedupFirst {α : Type} [DecidableEq α] : List α → List α
  | [] => []
  | a :: l => a :: dedupFirst (l.filter (fun b => b != a))
termination_by l => l.length
decreasing_by
  have h := List.length_filter_le (fun b => b != a) l
  simp only [List.length_cons]
  omega

/-- `Utils.extractMentions(text)`. -/
def extractMentions (text : List Char) : List (List Char) :=
  dedupFirst (scanMentions text)

/-- 0-based index of the first occurrence of `m` in `l`. -/
def firstIdx {α : Type} [DecidableEq α] (l : List α) (m : α) : Nat :=
  List.indexOf m l

/-- `m` occurs in `cs` as the text of a mention: immediately after an
`'@'` character. -/
def occursAfterAt (m cs : List Char) : Prop :=
  ∃ p q, cs = p ++ '@' :: (m ++ q)

/-! ## `static/js/utils.js` — text truncation

`Utils.truncateText(text, maxLength, suffix = '...')` returns `text`
unchanged when `text.length <= maxLength`, and otherwise
`text.substring(0, maxLength - suffix.length) + suffix`. -/

def truncateText (text : List Char) (maxLength : Nat) (suffix : List Char) :
    List Char :=
  if text.length ≤ maxLength then text
  else text.take (maxLength - suffix.length) ++ suffix

/-! ## `static/js/websocket.js` — `WebSocketManager`

The user-scoped channel client. Its mutable fields and the timers it
owns are collected in an explicit state record; each event handler and
method of the class becomes a state transformer. The browser socket's
readiness is one field (`noSocket` standing for `this.socket === null`,
the other constructors mirroring the `WebSocket.CONNECTING / OPEN /
CLOSING / CLOSED` ready states). Scheduled reconnect delays are
recorded in the order `setTimeout` is called. -/

/-- Readiness of `this.socket` (`noSocket` = the field is still null). -/
inductive SocketState where
  | noSocket
  | CONNECTING
  | OPEN
  | CLOSING
  | CLOSED
deriving DecidableEq, Repr

namespace WebSocketManager

/-- `this.maxReconnectAttempts = 5`. -/
def maxReconnectAttempts : Nat := 5

/-- `this.reconnectInterval = 5000` (milliseconds). -/
def reconnectInterval : Nat := 5000

/-- `this.heartbeatInterval = 30000` (milliseconds). -/
def heartbeatInterval : Nat := 30000

/-- The mutable state of one `WebSocketManager` instance together with
the timers and notices it has produced. `heartbeatActive` is
`this.heartbeatTimer !== null`; `scheduledReconnects` records every
reconnect delay passed to `setTimeout`, in order; `pendingReconnect`
says a scheduled reconnect timer has not fired yet; `maxedNotice` says
`onMaxReconnectAttemptsReached` has run (the terminal "Connection Lost"
toast). -/
structure State where
  reconnectAttempts : Nat
  heartbeatActive : Bool
  socket : SocketState
  scheduledReconnects : List Nat
  pendingReconnect : Bool
  maxedNotice : Bool
deriving DecidableEq, Repr

/-- `startHeartbeat()`: installs the interval timer. -/
def startHeartbeat (s : State) : State :=
  { s with heartbeatActive := true }

/-- `stopHeartbeat()`: clears the interval timer when present. -/
def stopHeartbeat (s : State) : State :=
  { s with heartbeatActive := false }

/-- `handleReconnect()`: below the cap, increment the counter and
schedule `connect()` after `reconnectInterval * reconnectAttempts`
milliseconds; at the cap, run `onMaxReconnectAttemptsReached()`. -/
def handleReconnect (s : State) : State :=
  if s.reconnectAttempts < maxReconnectAttempts then
    { s with
      reconnectAttempts := s.reconnectAttempts + 1,
      scheduledReconnects :=
        s.scheduledReconnects ++ [reconnectInterval * (s.reconnectAttempts + 1)],
      pendingReconnect := true }
  else
    { s with maxedNotice := true }

/-- `connect()` when `new WebSocket(url)` succeeds: a fresh socket in
the `CONNECTING` ready state replaces `this.socket`. -/
def connectOk (s : State) : State :=
  { s with socket := .CONNECTING }

/-- `connect()` when `new WebSocket(url)` throws: the error is caught
and `handleReconnect()` runs. -/
def connectFail (s : State) : State :=
  handleReconnect s

/-- The `onopen` handler: the socket is now `OPEN`; reset
`reconnectAttempts` and start the heartbeat. -/
def openEvent (s : State) : State :=
  startHeartbeat { s with socket := .OPEN, reconnectAttempts := 0 }

/-- The `onclose` handler: the socket is now `CLOSED`; stop the
heartbeat, and when the close was not clean run `handleReconnect()`. -/
def closeEvent (s : State) (wasClean : Bool) : State :=
  let s1 := stopHeartbeat { s with socket := .CLOSED }
  if wasClean then s1 else handleReconnect s1

/-- `disconnect()`: stop the heartbeat and call `this.socket.close()`
when a socket exists (a no-op on an already-closed socket). -/
def disconnect (s : State) : State :=
  let s1 := stopHeartbeat s
  match s1.socket with
  | .noSocket => s1
  | .CLOSED => s1
  | _ => { s1 with socket := .CLOSING }

/-- A scheduled reconnect timer fires and its `connect()` succeeds. -/
def reconnectTimerOk (s : State) : State :=
  connectOk { s with pendingReconnect := false }

/-- A scheduled reconnect timer fires and its `connect()` throws. -/
def reconnectTimerFail (s : State) : State :=
  connectFail { s with pendingReconnect := false }

/-- The state right after `new WebSocketManager(userId)` whose initial
`connect()` succeeded. -/
def initState : State :=
  connectOk ⟨0, false, .noSocket, [], false, false⟩

/-- The state right after `new WebSocketManager(userId)` whose initial
`connect()` threw. -/
def initStateFail : State :=
  connectFail ⟨0, false, .noSocket, [], false, false⟩

/-- One event-loop reaction of the client: socket events (guarded by
the ready states in which the browser can deliver them), the explicit
`disconnect()` call, a pending reconnect timer firing, and the
heartbeat interval firing (which only sends a frame). -/
inductive Step : State → State → Prop where
  | openEv (s : State) (h : s.socket = .CONNECTING) :
      Step s (openEvent s)
  | closeEv (s : State) (wasClean : Bool)
      (h : s.socket = .CONNECTING ∨ s.socket = .OPEN ∨ s.socket = .CLOSING) :
      Step s (closeEvent s wasClean)
  | disconnectEv (s : State) : Step s (disconnect s)
  | reconnectOk (s : State) (h : s.pendingReconnect = true) :
      Step s (reconnectTimerOk s)
  | reconnectFail (s : State) (h : s.pendingReconnect = true) :
      Step s (reconnectTimerFail s)
  | heartbeatFire (s : State) (h : s.heartbeatActive = true) : Step s s
  | errorEv (s : State) : Step s s

/-- States a `WebSocketManager` instance can reach. -/
inductive Reachable : State → Prop where
  | init : Reachable initState
  | initFail : Reachable initStateFail
  | step {s t : State} (hs : Reachable s) (st : Step s t) : Reachable t

/-- `N` consecutive unclean closes with no intervening successful open:
each cycle is an unclean close followed by the scheduled reconnect
timer firing and constructing a fresh (never-opening) socket. -/
def runCloses : Nat → State → State
  | 0, s => s
  | n + 1, s => runCloses n (reconnectTimerOk (closeEvent s false))

/-- `sendMessage(type, data)` outcome: the frames handed to
`socket.send` and whether the not-connected warning was logged. -/
structure SendOutcome where
  frames : List String
  warned : Bool
deriving DecidableEq, Repr

/-- `sendMessage(type, data)`: sends only when a socket exists and its
ready state is `OPEN`; otherwise logs a warning and returns. Never
throws. -/
def sendMessage (s : State) (frame : String) : Except String SendOutcome :=
  if s.socket = .OPEN then .ok ⟨[frame], false⟩
  else .ok ⟨[], true⟩

/-- The timer-ownership invariant of a client instance: the heartbeat
interval timer is installed exactly while the socket is `OPEN`, and a
pending reconnect timer exists only while there is no live socket. -/
def Inv (s : State) : Prop :=
  (s.heartbeatActive = true ↔ s.socket = .OPEN) ∧
  (s.pendingReconnect = true → s.socket = .noSocket ∨ s.socket = .CLOSED)

/-- The handlers `handleMessage` can dispatch to (`user_joined` and
`user_left` share `handleUserPresence`). -/
inductive Handler where
  | userStatus
  | notification
  | chatMessage
  | typingIndicator
  | userPresence
deriving DecidableEq, Repr

/-- The tags of `handleMessage`'s `case` arms. -/
def recognizedTags : List String :=
  ["user_status", "notification", "chat_message", "typing_indicator",
   "user_joined", "user_left"]

/-- `handleMessage(data)`: `switch (data.type)`. Returns the handler
invoked (at most one) and whether the `default` arm logged an unknown
type. -/
def handleMessage (tag : String) : Option Handler × Bool :=
  if tag = "user_status" then (some .userStatus, false)
  else if tag = "notification" then (some .notification, false)
  else if tag = "chat_message" then (some .chatMessage, false)
  else if tag = "typing_indicator" then (some .typingIndicator, false)
  else if tag = "user_joined" then (some .userPresence, false)
  else if tag = "user_left" then (some .userPresence, false)
  else (none, true)

end WebSocketManager

/-- One frame delivered by the transport: either valid JSON decoding to
a message with the given `type` tag, or text that `JSON.parse` rejects. -/
inductive Frame where
  | wellFormed (tag : String)
  | malformed (raw : String)
deriving DecidableEq, Repr

/-- The platform `JSON.parse` on a frame's payload: yields the decoded
message's tag, or throws a `SyntaxError`. -/
def jsonParse : Frame → Except String String
  | .wellFormed tag => .ok tag
  | .malformed _ => .error "SyntaxError"

namespace WebSocketManager

/-- The `onmessage` handler: `JSON.parse` inside `try`, dispatch via
`handleMessage`; on a parse error, `console.error` and nothing else.
Returns the state after the handler, the handler dispatched to, and
whether the parse-error log ran. Total — the `catch` keeps every
exception inside the handler. -/
def onMessage (s : State) (f : Frame) : State × Option Handler × Bool :=
  match jsonParse f with
  | .ok tag => (s, (handleMessage tag).1, false)
  | .error _ => (s, none, true)

end WebSocketManager

/-! ## The room-scoped `ChatRoomManager` (chat page script)

Only the parts the claims need: the platform `send` primitive, the
`onclose` handler, the `onmessage` handler and the dispatcher, and
`sendMessage()`. -/

/-- The platform `WebSocket.send(data)` (WHATWG living standard): on a
`CONNECTING` socket it throws `InvalidStateError`; on an `OPEN` socket
the frame is transmitted; on a `CLOSING`/`CLOSED` socket the data is
silently discarded; on a null socket the member access itself throws. -/
def wsSend (socket : SocketState) (frame : String) : Except String (List String) :=
  match socket with
  | .noSocket => .error "TypeError"
  | .CONNECTING => .error "InvalidStateError"
  | .OPEN => .ok [frame]
  | .CLOSING => .ok []
  | .CLOSED => .ok []

namespace ChatRoomManager

/-- The fixed retry delay of the `onclose` handler (milliseconds). -/
def retryDelay : Nat := 3000

/-- The `onclose` handler: logs and unconditionally schedules
`connectWebSocket()` after 3000 ms — the close event's `wasClean` flag
is never consulted. Returns the scheduled reconnect delays. -/
def onClose (scheduled : List Nat) (wasClean : Bool) : List Nat :=
  scheduled ++ [retryDelay]

/-- The handlers `handleWebSocketMessage` can dispatch to. -/
inductive Handler where
  | addMessage
  | updateTypingIndicator
  | updateUserPresence
  | updateReaction
deriving DecidableEq, Repr

/-- The tags of `handleWebSocketMessage`'s `case` arms. -/
def recognizedTags : List String :=
  ["chat_message", "typing_indicator", "user_presence", "message_reaction"]

/-- `handleWebSocketMessage(data)`: `switch (data.type)` with no
`default` arm — an unknown tag falls through with no handler, no log,
no exception. Returns the handler invoked and whether anything was
logged about an unknown tag. -/
def handleWebSocketMessage (tag : String) : Option Handler × Bool :=
  if tag = "chat_message" then (some .addMessage, false)
  else if tag = "typing_indicator" then (some .updateTypingIndicator, false)
  else if tag = "user_presence" then (some .updateUserPresence, false)
  else if tag = "message_reaction" then (some .updateReaction, false)
  else (none, false)

/-- The `onmessage` handler: `JSON.parse(event.data)` with no
`try`/`catch`, then dispatch. A decoding error propagates out of the
handler as an uncaught exception. -/
def onMessage (f : Frame) : Except String (Option Handler) :=
  (jsonParse f).map (fun tag => (handleWebSocketMessage tag).1)

/-- JavaScript `String.prototype.trim()`: strip leading and trailing
whitespace. -/
def jsTrim (s : String) : String :=
  ⟨((s.data.dropWhile Char.isWhitespace).reverse.dropWhile
      Char.isWhitespace).reverse⟩

/-- `sendMessage()`: returns early when the trimmed input is empty,
otherwise calls `this.socket.send(JSON.stringify(messageData))` with no
ready-state check. Returns the transmitted frames, or the exception the
unguarded `send` throws. -/
def sendMessage (socket : SocketState) (content : String) :
    Except String (List String) :=
  if jsTrim content = "" then .ok []
  else wsSend socket content

end ChatRoomManager

/-! ## Theorems -/

/-- C8: a value stored with time-to-live `ttl` at instant `t` is
returned by a read at or before `t + ttl`; a read strictly after
`t + ttl` evicts the entry and returns absent; a key never stored reads
as absent. -/
theorem storage_expiry_spec (st : Storage) (key v : String) (ttl t now : Nat) :
    (t + ttl < now →
      (getStorageWithExpiry (setStorageWithExpiry st key v ttl t) key now).1 = none ∧
      (getStorageWithExpiry (setStorageWithExpiry st key v ttl t) key now).2 key = none) ∧
    (now ≤ t + ttl →
      (getStorageWithExpiry (setStorageWithExpiry st key v ttl t) key now).1 = some v ∧
      (getStorageWithExpiry (setStorageWithExpiry st key v ttl t) key now).2 key
        = some ⟨v, t + ttl⟩) ∧
    (st key = none → (getStorageWithExpiry st key now).1 = none) := by
  refine ⟨?_, ?_, ?_⟩
  · intro h
    simp [getStorageWithExpiry, setStorageWithExpiry, h]
  · intro h
    have h2 : ¬ t + ttl < now := by omega
    simp [getStorageWithExpiry, setStorageWithExpiry, h2]
  · intro h
    simp [getStorageWithExpiry, h]

theorem storage_expiry_spec_witness :
    (getStorageWithExpiry
        (setStorageWithExpiry (fun _ => none) "theme" "dark" 100 7) "theme" 108).1
      = none ∧
    (getStorageWithExpiry
        (setStorageWithExpiry (fun _ => none) "theme" "dark" 100 7) "theme" 107).1
      = some "dark" :=
  ⟨((storage_expiry_spec (fun _ => none) "theme" "dark" 100 7 108).1 (by decide)).1,
   ((storage_expiry_spec (fun _ => none) "theme" "dark" 100 7 107).2.1 (by decide)).1⟩

/-- C10: `Utils.truncateText` returns the text unchanged when it fits
within `maxLength`; otherwise (given the suffix fits within
`maxLength`) it returns a prefix of the text followed by the suffix,
with total length exactly `maxLength`. -/
theorem truncateText_spec (text suffix : List Char) (maxLength : Nat)
    (h : suffix.length ≤ maxLength) :
    (text.length ≤ maxLength → truncateText text maxLength suffix = text) ∧
    (maxLength < text.length →
      truncateText text maxLength suffix
        = text.take (maxLength - suffix.length) ++ suffix ∧
      (truncateText text maxLength suffix).length = maxLength) := by
  constructor
  · intro hle
    simp [truncateText, hle]
  · intro hlt
    have hne : ¬ text.length ≤ maxLength := by omega
    refine ⟨by simp [truncateText, hne], ?_⟩
    simp only [truncateText, hne, if_false, List.length_append, List.length_take]
    omega

theorem truncateText_spec_witness :
    truncateText ['a', 'b', 'c', 'd', 'e'] 4 ['.', '.', '.']
      = ['a', 'b', 'c', 'd', 'e'].take 1 ++ ['.', '.', '.'] ∧
    (truncateText ['a', 'b', 'c', 'd', 'e'] 4 ['.', '.', '.']).length = 4 :=
  (truncateText_spec ['a', 'b', 'c', 'd', 'e'] ['.', '.', '.'] 4 (by decide)).2
    (by decide)

/-- C1: starting from a client whose reconnect counter is `0`, a run of
`N < 5` consecutive unclean closes with no intervening successful open
schedules exactly `N` reconnect attempts, the `k`-th (1-based) with
delay `k * 5000` ms, so the newly scheduled delays are strictly
increasing. -/
theorem reconnect_backoff_spec (s : WebSocketManager.State) (N : Nat)
    (ha : s.reconnectAttempts = 0)
    (hN : N < WebSocketManager.maxReconnectAttempts) :
    (WebSocketManager.runCloses N s).scheduledReconnects
      = s.scheduledReconnects
        ++ (List.range N).map (fun k => WebSocketManager.reconnectInterval * (k + 1)) ∧
    List.Pairwise (· < ·)
      ((List.range N).map (fun k => WebSocketManager.reconnectInterval * (k + 1))) := by
  have hN5 : N < 5 := hN
  interval_cases N <;>
    refine ⟨?_, by decide⟩ <;>
    simp [WebSocketManager.runCloses, WebSocketManager.reconnectTimerOk,
      WebSocketManager.connectOk, WebSocketManager.closeEvent,
      WebSocketManager.stopHeartbeat, WebSocketManager.handleReconnect,
      WebSocketManager.maxReconnectAttempts, WebSocketManager.reconnectInterval,
      ha, List.range_succ]

theorem reconnect_backoff_spec_witness :
    (WebSocketManager.runCloses 3 WebSocketManager.initState).scheduledReconnects
      = WebSocketManager.initState.scheduledReconnects
        ++ (List.range 3).map (fun k => WebSocketManager.reconnectInterval * (k + 1)) ∧
    List.Pairwise (· < ·)
      ((List.range 3).map (fun k => WebSocketManager.reconnectInterval * (k + 1))) :=
  reconnect_backoff_spec WebSocketManager.initState 3 (by decide) (by decide)

/-- C2 counterexample: `ChatRoomManager.sendMessage` performs no
ready-state check, so sending nonempty content while the socket is
`CONNECTING` hands the frame to the platform `send`, which throws
`InvalidStateError` — the call does not return silently. -/
theorem chat_send_while_connecting_throws :
    ChatRoomManager.sendMessage .CONNECTING "hello"
      = .error "InvalidStateError" := by
  rfl

/-- C2 amended: for the user-scoped `WebSocketManager`, `sendMessage`
called while the socket is not `OPEN` returns without throwing,
transmits no frame, and only logs a warning. -/
theorem wsm_send_not_connected_silent (s : WebSocketManager.State) (frame : String)
    (h : ¬ s.socket = .OPEN) :
    WebSocketManager.sendMessage s frame = .ok ⟨[], true⟩ := by
  simp [WebSocketManager.sendMessage, h]

theorem wsm_send_not_connected_silent_witness :
    WebSocketManager.sendMessage WebSocketManager.initState "chat_message"
      = .ok ⟨[], true⟩ :=
  wsm_send_not_connected_silent WebSocketManager.initState "chat_message" (by decide)

/-- C3 counterexample: the room-scoped `ChatRoomManager` `onclose`
handler schedules a 3000 ms reconnect on every close — in particular a
clean close does schedule a reconnect attempt. -/
theorem chat_clean_close_schedules_reconnect :
    ChatRoomManager.onClose [] true = [3000] ∧
    (ChatRoomManager.onClose [] true).length ≠ 0 := by
  decide

/-- C3 amended: for the user-scoped `WebSocketManager`, a clean close
never schedules a reconnect: the `onclose` handler with `wasClean`
leaves the scheduled-reconnect list and the pending-reconnect flag
unchanged; the room-scoped `ChatRoomManager` instead schedules a
3000 ms reconnect on every close, clean or not. -/
theorem wsm_clean_close_no_reconnect (s : WebSocketManager.State) :
    (WebSocketManager.closeEvent s true).scheduledReconnects
      = s.scheduledReconnects ∧
    (WebSocketManager.closeEvent s true).pendingReconnect
      = s.pendingReconnect ∧
    (∀ sched : List Nat, ChatRoomManager.onClose sched true ≠ sched) := by
  refine ⟨rfl, rfl, ?_⟩
  intro sched h
  have := congrArg List.length h
  simp [ChatRoomManager.onClose] at this

/-- C5 counterexample: the room-scoped dispatcher's `switch` has no
`default` arm, so a frame with an unrecognized tag is dropped without
any log — the dispatch is not logged. -/
theorem chat_unknown_tag_not_logged :
    ChatRoomManager.handleWebSocketMessage "presence_sync" = (none, false) := by
  decide

/-- C5 amended: each dispatcher routes a decoded message to exactly one
handler precisely when its tag is recognized, and drops unrecognized
tags with no handler invoked and no exception; the user-scoped
dispatcher logs the unknown tag, the room-scoped one drops it
silently. -/
theorem dispatch_by_tag (tag : String) :
    ((WebSocketManager.handleMessage tag).1.isSome = true
      ↔ tag ∈ WebSocketManager.recognizedTags) ∧
    (tag ∉ WebSocketManager.recognizedTags →
      WebSocketManager.handleMessage tag = (none, true)) ∧
    ((ChatRoomManager.handleWebSocketMessage tag).1.isSome = true
      ↔ tag ∈ ChatRoomManager.recognizedTags) ∧
    (tag ∉ ChatRoomManager.recognizedTags →
      ChatRoomManager.handleWebSocketMessage tag = (none, false)) := by
  unfold WebSocketManager.handleMessage ChatRoomManager.handleWebSocketMessage
    WebSocketManager.recognizedTags ChatRoomManager.recognizedTags
  split_ifs <;> simp_all

theorem dispatch_by_tag_witness :
    WebSocketManager.handleMessage "reaction_added" = (none, true) :=
  (dispatch_by_tag "reaction_added").2.1 (by decide)

/-- C6 counterexample: the room-scoped `onmessage` handler calls
`JSON.parse` outside any `try`, so a malformed frame's decoding error
is not caught — it propagates out of the handler. -/
theorem chat_decode_failure_uncaught :
    ChatRoomManager.onMessage (.malformed "not json") = .error "SyntaxError" := by
  rfl

/-- C6 amended: for the user-scoped `WebSocketManager`, a frame whose
payload fails to decode only triggers the per-frame error log — no
handler runs, the client state (socket, timers, counters) is untouched,
and any subsequent frame is processed exactly as it would have been
without the malformed one. -/
theorem wsm_decode_failure_contained (s : WebSocketManager.State) (raw : String) :
    WebSocketManager.onMessage s (.malformed raw) = (s, none, true) ∧
    (∀ f : Frame,
      WebSocketManager.onMessage
          (WebSocketManager.onMessage s (.malformed raw)).1 f
        = WebSocketManager.onMessage s f) := by
  exact ⟨rfl, fun _ => rfl⟩

/-- C7: once the reconnect counter has reached the maximum of 5, an
unclean close runs `onMaxReconnectAttemptsReached` (the terminal
"Connection Lost" notice to the UI layer) and schedules no further
reconnect attempt: the scheduled-delay list, the pending-reconnect
flag, and the counter are all unchanged. -/
theorem max_attempts_terminal (s : WebSocketManager.State)
    (h : WebSocketManager.maxReconnectAttempts ≤ s.reconnectAttempts) :
    (WebSocketManager.closeEvent s false).maxedNotice = true ∧
    (WebSocketManager.closeEvent s false).scheduledReconnects
      = s.scheduledReconnects ∧
    (WebSocketManager.closeEvent s false).pendingReconnect
      = s.pendingReconnect ∧
    (WebSocketManager.closeEvent s false).reconnectAttempts
      = s.reconnectAttempts := by
  have h2 : ¬ s.reconnectAttempts < WebSocketManager.maxReconnectAttempts := by
    omega
  simp [WebSocketManager.closeEvent, WebSocketManager.stopHeartbeat,
    WebSocketManager.handleReconnect, h2]

theorem max_attempts_terminal_witness :
    (WebSocketManager.closeEvent
        ⟨5, false, .OPEN, [5000, 10000, 15000, 20000, 25000], false, false⟩
        false).maxedNotice = true ∧
    (WebSocketManager.closeEvent
        ⟨5, false, .OPEN, [5000, 10000, 15000, 20000, 25000], false, false⟩
        false).scheduledReconnects = [5000, 10000, 15000, 20000, 25000] ∧
    (WebSocketManager.closeEvent
        ⟨5, false, .OPEN, [5000, 10000, 15000, 20000, 25000], false, false⟩
        false).pendingReconnect = false ∧
    (WebSocketManager.closeEvent
        ⟨5, false, .OPEN, [5000, 10000, 15000, 20000, 25000], false, false⟩
        false).reconnectAttempts = 5 :=
  max_attempts_terminal
    ⟨5, false, .OPEN, [5000, 10000, 15000, 20000, 25000], false, false⟩
    (by decide)

lemma wsm_inv_init : WebSocketManager.Inv WebSocketManager.initState :=
  ⟨by decide, by decide⟩

lemma wsm_inv_initFail : WebSocketManager.Inv WebSocketManager.initStateFail :=
  ⟨by decide, by decide⟩

lemma wsm_inv_handleReconnect {s : WebSocketManager.State}
    (hb : s.heartbeatActive = false)
    (hs : s.socket = .noSocket ∨ s.socket = .CLOSED) :
    WebSocketManager.Inv (WebSocketManager.handleReconnect s) := by
  have hns : ¬ s.socket = SocketState.OPEN := by
    rcases hs with hc | hc <;> simp [hc]
  unfold WebSocketManager.Inv WebSocketManager.handleReconnect
  split_ifs <;> exact ⟨by simp [hb, hns], fun _ => hs⟩

lemma wsm_inv_step {s t : WebSocketManager.State}
    (hi : WebSocketManager.Inv s) (st : WebSocketManager.Step s t) :
    WebSocketManager.Inv t := by
  obtain ⟨h1, h2⟩ := hi
  cases st with
  | openEv h =>
      have hpf : s.pendingReconnect = false := by
        rcases hhp : s.pendingReconnect with _ | _
        · rfl
        · rcases h2 hhp with hc | hc <;> rw [h] at hc <;> simp at hc
      refine ⟨by simp [WebSocketManager.openEvent, WebSocketManager.startHeartbeat], ?_⟩
      intro hp
      simp [WebSocketManager.openEvent, WebSocketManager.startHeartbeat, hpf] at hp
  | closeEv w h =>
      cases w with
      | true =>
          refine ⟨?_, fun _ => Or.inr rfl⟩
          simp [WebSocketManager.closeEvent, WebSocketManager.stopHeartbeat]
      | false =>
          exact wsm_inv_handleReconnect rfl (Or.inr rfl)
  | disconnectEv =>
      rcases hsoc : s.socket with _ | _ | _ | _ | _ <;>
        refine ⟨?_, ?_⟩ <;>
        simp_all [WebSocketManager.disconnect, WebSocketManager.stopHeartbeat]
  | reconnectOk h =>
      have hns : ¬ s.socket = SocketState.OPEN := by
        rcases h2 h with hc | hc <;> simp [hc]
      have hb : s.heartbeatActive = false := by
        rcases hhb : s.heartbeatActive with _ | _
        · rfl
        · exact absurd (h1.mp hhb) hns
      refine ⟨?_, ?_⟩ <;>
        simp [WebSocketManager.reconnectTimerOk, WebSocketManager.connectOk, hb]
  | reconnectFail h =>
      have hs2 := h2 h
      have hns : ¬ s.socket = SocketState.OPEN := by
        rcases hs2 with hc | hc <;> simp [hc]
      have hb : s.heartbeatActive = false := by
        rcases hhb : s.heartbeatActive with _ | _
        · rfl
        · exact absurd (h1.mp hhb) hns
      exact wsm_inv_handleReconnect hb hs2
  | heartbeatFire h => exact ⟨h1, h2⟩
  | errorEv => exact ⟨h1, h2⟩

lemma wsm_inv_reachable {s : WebSocketManager.State}
    (h : WebSocketManager.Reachable s) : WebSocketManager.Inv s := by
  induction h with
  | init => exact wsm_inv_init
  | initFail => exact wsm_inv_initFail
  | step hs st ih => exact wsm_inv_step ih st

/-- C4: in every reachable state of the user-scoped channel client, the
heartbeat timer is installed exactly when the socket is `OPEN`
(Connected); moreover every close event and every explicit
`disconnect()` leave it cancelled, and only a successful open installs
it. Since the heartbeat can only fire while installed, it never fires
in a Disconnected or Connecting state. -/
theorem heartbeat_iff_connected (s : WebSocketManager.State)
    (h : WebSocketManager.Reachable s) :
    (s.heartbeatActive = true ↔ s.socket = .OPEN) ∧
    (∀ w, (WebSocketManager.closeEvent s w).heartbeatActive = false) ∧
    (WebSocketManager.disconnect s).heartbeatActive = false ∧
    (WebSocketManager.openEvent s).heartbeatActive = true := by
  refine ⟨(wsm_inv_reachable h).1, ?_, ?_, rfl⟩
  · intro w
    cases w <;>
      simp only [WebSocketManager.closeEvent, WebSocketManager.stopHeartbeat,
        WebSocketManager.handleReconnect] <;>
      split_ifs <;> rfl
  · rcases hsoc : s.socket with _ | _ | _ | _ | _ <;>
      simp [WebSocketManager.disconnect, WebSocketManager.stopHeartbeat, hsoc]

theorem heartbeat_iff_connected_witness :
    (WebSocketManager.initState.heartbeatActive = true
      ↔ WebSocketManager.initState.socket = .OPEN) ∧
    (∀ w, (WebSocketManager.closeEvent WebSocketManager.initState w).heartbeatActive
      = false) ∧
    (WebSocketManager.disconnect WebSocketManager.initState).heartbeatActive = false ∧
    (WebSocketManager.openEvent WebSocketManager.initState).heartbeatActive = true :=
  heartbeat_iff_connected WebSocketManager.initState WebSocketManager.Reachable.init

lemma takeWhile_append_drop (p : Char → Bool) (l : List Char) :
    l.takeWhile p ++ l.drop (l.takeWhile p).length = l := by
  induction l with
  | nil => simp
  | cons c l ih =>
      by_cases h : p c
      · simp [List.takeWhile_cons, h, ih]
      · simp [List.takeWhile_cons, h]

lemma mem_dedupFirst {α : Type} [DecidableEq α] (l : List α) (x : α) :
    x ∈ dedupFirst l ↔ x ∈ l := by
  induction l using dedupFirst.induct with
  | case1 => simp [dedupFirst]
  | case2 a l ih =>
      simp only [dedupFirst, List.mem_cons, ih, List.mem_filter, bne_iff_ne]
      by_cases hxa : x = a <;> simp [hxa]

lemma nodup_dedupFirst {α : Type} [DecidableEq α] (l : List α) :
    (dedupFirst l).Nodup := by
  induction l using dedupFirst.induct with
  | case1 => simp [dedupFirst]
  | case2 a l ih =>
      simp only [dedupFirst]
      refine List.nodup_cons.mpr ⟨?_, ih⟩
      intro ha
      have hmem := (mem_dedupFirst _ a).1 ha
      simp [List.mem_filter] at hmem

lemma indexOf_filter_lt {α : Type} [DecidableEq α] (a : α) (t : List α) :
    ∀ x y : α, x ∈ t.filter (fun b => b != a) → y ∈ t.filter (fun b => b != a) →
      (t.filter (fun b => b != a)).indexOf x < (t.filter (fun b => b != a)).indexOf y →
      t.indexOf x < t.indexOf y := by
  induction t with
  | nil => intro x y hx _ _; simp at hx
  | cons b t ih =>
      intro x y hx hy h
      by_cases hba : (b != a) = true
      · have hfc : List.filter (fun c => c != a) (b :: t)
            = b :: List.filter (fun c => c != a) t := by
          simp [List.filter_cons, hba]
        rw [hfc] at hx hy h
        by_cases hxb : x = b
        · subst hxb
          have hyx : y ≠ x := by
            intro he
            subst he
            exact lt_irrefl _ h
          rw [List.indexOf_cons_self, List.indexOf_cons_ne t (Ne.symm hyx)]
          exact Nat.succ_pos _
        · by_cases hyb : y = b
          · subst hyb
            rw [List.indexOf_cons_self] at h
            exact absurd h (Nat.not_lt_zero _)
          · have hx2 : x ∈ t.filter (fun c => c != a) := by
              rcases List.mem_cons.mp hx with h2 | h2
              · exact absurd h2 hxb
              · exact h2
            have hy2 : y ∈ t.filter (fun c => c != a) := by
              rcases List.mem_cons.mp hy with h2 | h2
              · exact absurd h2 hyb
              · exact h2
            rw [List.indexOf_cons_ne _ (Ne.symm hxb),
              List.indexOf_cons_ne _ (Ne.symm hyb)] at h
            rw [List.indexOf_cons_ne _ (Ne.symm hxb),
              List.indexOf_cons_ne _ (Ne.symm hyb)]
            exact Nat.succ_lt_succ (ih x y hx2 hy2 (Nat.lt_of_succ_lt_succ h))
      · have hba2 : b = a := by simpa using hba
        have hfc : List.filter (fun c => c != a) (b :: t)
            = List.filter (fun c => c != a) t := by
          simp [List.filter_cons, hba2]
        rw [hfc] at hx hy h
        have hxa : x ≠ a := by
          have := List.mem_filter.mp hx
          simpa using this.2
        have hya : y ≠ a := by
          have := List.mem_filter.mp hy
          simpa using this.2
        rw [List.indexOf_cons_ne t (hba2 ▸ Ne.symm hxa),
          List.indexOf_cons_ne t (hba2 ▸ Ne.symm hya)]
        exact Nat.succ_lt_succ (ih x y hx hy h)

lemma pairwise_indexOf_dedupFirst {α : Type} [DecidableEq α] (l : List α) :
    List.Pairwise (fun x y => l.indexOf x < l.indexOf y) (dedupFirst l) := by
  induction l using dedupFirst.induct with
  | case1 => simp [dedupFirst]
  | case2 a l ih =>
      simp only [dedupFirst]
      refine List.Pairwise.cons ?_ (ih.imp_of_mem ?_)
      · intro b hb
        have hbf := (mem_dedupFirst _ b).1 hb
        have hbne : b ≠ a := by
          have := List.mem_filter.mp hbf
          simpa using this.2
        rw [List.indexOf_cons_self, List.indexOf_cons_ne _ (Ne.symm hbne)]
        exact Nat.succ_pos _
      · intro x y hx hy hxy
        have hxf := (mem_dedupFirst _ x).1 hx
        have hyf := (mem_dedupFirst _ y).1 hy
        have hxa : x ≠ a := by
          have := List.mem_filter.mp hxf
          simpa using this.2
        have hya : y ≠ a := by
          have := List.mem_filter.mp hyf
          simpa using this.2
        rw [List.indexOf_cons_ne _ (Ne.symm hxa), List.indexOf_cons_ne _ (Ne.symm hya)]
        exact Nat.succ_lt_succ (indexOf_filter_lt a l x y hxf hyf hxy)

lemma scanMentions_sound (cs : List Char) :
    ∀ m ∈ scanMentions cs,
      m ≠ [] ∧ (∀ c ∈ m, isWordChar c = true) ∧ occursAfterAt m cs := by
  induction cs using scanMentions.induct with
  | case1 => simp [scanMentions]
  | case2 c rest w hcond ih =>
      intro m hm
      rw [scanMentions] at hm
      simp only [hcond, if_true] at hm
      have hc : c = '@' := of_decide_eq_true ((Bool.and_eq_true _ _).mp hcond).1
      have hw2 : (!w.isEmpty) = true := ((Bool.and_eq_true _ _).mp hcond).2
      have hwne : w ≠ [] := by
        intro hnil
        rw [hnil] at hw2
        simp at hw2
      rcases List.mem_cons.mp hm with rfl | hm2
      · refine ⟨hwne, fun ch hch => List.mem_takeWhile_imp hch,
          [], rest.drop w.length, ?_⟩
        rw [hc]
        have hr := takeWhile_append_drop isWordChar rest
        simp only [List.nil_append, List.cons.injEq, true_and]
        exact hr.symm
      · obtain ⟨hne, hword, p, q, he⟩ := ih m hm2
        refine ⟨hne, hword, c :: (w ++ p), q, ?_⟩
        have hrest : w ++ rest.drop w.length = rest := takeWhile_append_drop _ rest
        calc c :: rest = c :: (w ++ rest.drop w.length) := by rw [hrest]
          _ = c :: (w ++ (p ++ '@' :: (m ++ q))) := by rw [he]
          _ = (c :: (w ++ p)) ++ '@' :: (m ++ q) := by simp
  | case3 c rest w hcond ih =>
      intro m hm
      rw [scanMentions] at hm
      simp only [hcond, if_false] at hm
      obtain ⟨hne, hword, p, q, he⟩ := ih m hm
      exact ⟨hne, hword, c :: p, q, by rw [List.cons_append, he]⟩

/-- C9: `Utils.extractMentions` returns a duplicate-free list; an
element is in the result exactly when the mention scan produces it, the
result lists mentions in order of first occurrence in the scan, and
every element of the result occurs in the text as a nonempty maximal
word-character run immediately after an `'@'`. -/
theorem extractMentions_spec (text : List Char) :
    (extractMentions text).Nodup ∧
    (∀ m, m ∈ extractMentions text ↔ m ∈ scanMentions text) ∧
    List.Pairwise
      (fun a b => firstIdx (scanMentions text) a < firstIdx (scanMentions text) b)
      (extractMentions text) ∧
    (∀ m ∈ extractMentions text,
      m ≠ [] ∧ (∀ c ∈ m, isWordChar c = true) ∧ occursAfterAt m text) :=
  ⟨nodup_dedupFirst _, fun m => mem_dedupFirst _ m, pairwise_indexOf_dedupFirst _,
    fun m hm => scanMentions_sound text m ((mem_dedupFirst _ m).1 hm)⟩

theorem extractMentions_spec_witness :
    ['b', 'o', 'b'] ≠ [] ∧
    (∀ c ∈ ['b', 'o', 'b'], isWordChar c = true) ∧
    occursAfterAt ['b', 'o', 'b']
      ['@', 'b', 'o', 'b', ' ', '@', 'a', 'l', ' ', '@', 'b', 'o', 'b'] :=
  (extractMentions_spec
      ['@', 'b', 'o', 'b', ' ', '@', 'a', 'l', ' ', '@', 'b', 'o', 'b']).2.2.2
    ['b', 'o', 'b']
    (by simp [extractMentions, dedupFirst, scanMentions, isWordChar])

end ConvoSphere
